import Mathlib

/-!
Shallow embedding of `src/sidco_scraper.py`: an HTML tree model with
BeautifulSoup-style traversals, models of Python `float` and
`datetime.strptime`, and the two parsers `parsear_tabla_incendios`
and `parsear_ficha_incendio`.
-/

namespace Sidco

mutual

/-- HTML element tree: an element node with tag, attribute list, class list
and children, or a text node. Children use a mutual list type so that all
traversals are structural and kernel-reducible. -/
inductive Html where
  | elem (tag : String) (attrs : List (String × String)) (classes : List String) (children : HtmlList)
  | txt (s : String)

inductive HtmlList where
  | nil
  | cons (h : Html) (t : HtmlList)

end

/-- Build an `HtmlList` from a `List Html` (for writing concrete documents). -/
def hl : List Html → HtmlList
  | [] => .nil
  | x :: xs => .cons x (hl xs)

/-- Substring test, as Python's `in` on strings: `containsSub p l` is true
iff the character list `p` occurs contiguously inside `l`. -/
def containsSub (p : List Char) : List Char → Bool
  | [] => p.isPrefixOf []
  | c :: rest => p.isPrefixOf (c :: rest) || containsSub p rest

mutual

/-- Preorder traversal of all element nodes, each paired with its ancestor
chain (nearest ancestor first); text nodes are not listed. -/
def Html.nodesA : Html → List Html → List (Html × List Html)
  | .txt _, _ => []
  | .elem t a c cs, anc =>
    (Html.elem t a c cs, anc) :: HtmlList.nodesAL cs (Html.elem t a c cs :: anc)

def HtmlList.nodesAL : HtmlList → List Html → List (Html × List Html)
  | .nil, _ => []
  | .cons h t, anc => Html.nodesA h anc ++ HtmlList.nodesAL t anc

end

mutual

/-- All text content of a node, as a flat character list in document order. -/
def Html.rawText : Html → List Char
  | .txt s => s.data
  | .elem _ _ _ cs => HtmlList.rawTextL cs

def HtmlList.rawTextL : HtmlList → List Char
  | .nil => []
  | .cons h t => Html.rawText h ++ HtmlList.rawTextL t

end

mutual

/-- The descendant text fragments of a node, in document order
(BeautifulSoup `strings`). -/
def Html.textFragments : Html → List String
  | .txt s => [s]
  | .elem _ _ _ cs => HtmlList.textFragmentsL cs

def HtmlList.textFragmentsL : HtmlList → List String
  | .nil => []
  | .cons h t => Html.textFragments h ++ HtmlList.textFragmentsL t

end

/-- BeautifulSoup `Tag.string`: the sole string of an element that has
exactly one child, recursing through a single element child. -/
def Html.soleString : Html → Option String
  | .elem _ _ _ (.cons (.txt s) .nil) => some s
  | .elem _ _ _ (.cons (.elem t a c cs) .nil) => Html.soleString (.elem t a c cs)
  | _ => none

/-- Tag-name test for an element node. -/
def Html.isTag (t : String) : Html → Bool
  | .elem tg _ _ _ => tg == t
  | .txt _ => false

/-- The class list of a node (`get("class", [])`). -/
def Html.classesOf : Html → List String
  | .elem _ _ cls _ => cls
  | .txt _ => []

/-- Attribute lookup returning an option (`"k" in tag.attrs` / `tag["k"]`). -/
def Html.attrQ (k : String) : Html → Option String
  | .elem _ attrs _ _ => (attrs.find? (fun p => p.1 == k)).map (fun p => p.2)
  | .txt _ => none

/-- Attribute lookup with default (`tag.get(k, d)`). -/
def Html.attrD (k d : String) (n : Html) : String := (Html.attrQ k n).getD d

/-- All element nodes of a document, with ancestor chains. -/
def nodesAnc (doc : Html) : List (Html × List Html) := Html.nodesA doc []

/-- All element nodes of a document in document (preorder) order. -/
def nodesOf (doc : Html) : List Html := (nodesAnc doc).map Prod.fst

/-- The proper element descendants of a node in document order. -/
def descNodes (n : Html) : List Html := (nodesOf n).drop 1

/-- First descendant element satisfying a predicate (`tag.find(...)`). -/
def findDesc (p : Html → Bool) (n : Html) : Option Html := (descNodes n).find? p

/-- All descendant elements with a given tag name (`tag.find_all(t)`). -/
def descTags (t : String) (n : Html) : List Html := (descNodes n).filter (Html.isTag t)

/-- Whether a node's class list contains a given class. -/
def hasClass (c : String) (n : Html) : Bool := (Html.classesOf n).contains c

/-- Full text of a node with no stripping. -/
def getTextRaw (n : Html) : String := String.mk (Html.rawText n)

/-- Strip leading and trailing whitespace from a character list
(Python `str.strip()`). -/
def pyStrip (l : List Char) : List Char :=
  ((l.dropWhile Char.isWhitespace).reverse.dropWhile Char.isWhitespace).reverse

/-- Join a list of strings with a separator. -/
def joinSep (sep : String) : List String → String
  | [] => ""
  | [x] => x
  | x :: y :: rest => x ++ sep ++ joinSep sep (y :: rest)

/-- Descendant text fragments, each stripped, dropping the empty ones
(`get_text(strip=True)` keeps exactly these). -/
def strippedFragments (n : Html) : List String :=
  ((Html.textFragments n).map (fun s => String.mk (pyStrip s.data))).filter (fun s => !(s == ""))

/-- Model of `tag.get_text(strip=True)`. -/
def getTextStrip (n : Html) : String := joinSep "" (strippedFragments n)

/-- Model of `tag.get_text(" ", strip=True)`. -/
def getTextSpace (n : Html) : String := joinSep " " (strippedFragments n)

/-- The BeautifulSoup `string=lambda t: t and ph in t` filter: the node's
sole string exists and contains the phrase. -/
def soleHas (ph : String) (n : Html) : Bool :=
  match Html.soleString n with
  | some s => containsSub ph.data s.data
  | none => false

/-- Whether the phrase occurs in the node's full text. -/
def textHas (ph : String) (n : Html) : Bool := containsSub ph.data (Html.rawText n)

/-- An unnormalized decimal value `num / den`, kept unreduced so that all
parser computations stay kernel-reducible. -/
structure Dec where
  num : Int
  den : Nat
deriving DecidableEq, Repr

/-- The rational value denoted by a `Dec`. -/
def Dec.toRat (d : Dec) : ℚ := (d.num : ℚ) / (d.den : ℚ)

/-- Result of Python `float(...)`: a finite decimal idealizing the IEEE
double, an infinity, or nan. -/
inductive PyFloat where
  | finite (d : Dec)
  | inf (neg : Bool)
  | nan
deriving DecidableEq, Repr

/-- Numeric value of a digit character. -/
def digitVal (c : Char) : Nat := c.toNat - 48

/-- Accumulate a run of digits allowing single underscores between digits
(CPython number literals); returns value, digit count and rest. -/
def digitsUAux : Nat → Nat → List Char → Nat × Nat × List Char
  | v, k, [] => (v, k, [])
  | v, k, '_' :: rest =>
    match rest with
    | d :: r2 =>
      if d.isDigit then digitsUAux (10 * v + digitVal d) (k + 1) r2
      else (v, k, '_' :: rest)
    | [] => (v, k, ['_'])
  | v, k, c :: rest =>
    if c.isDigit then digitsUAux (10 * v + digitVal c) (k + 1) rest
    else (v, k, c :: rest)

/-- A digit run must start with a digit. -/
def digitsU : List Char → Option (Nat × Nat × List Char)
  | c :: rest => if c.isDigit then some (digitsUAux (digitVal c) 1 rest) else none
  | [] => none

/-- Exponent suffix of a float literal: optional sign then digits, which
must consume the whole remainder; scales the mantissa `num / den`. -/
def pyExpDigits (neg : Bool) (num : Nat) (den : Nat) (r : List Char) : Option PyFloat :=
  let se :=
    match r with
    | '+' :: r2 => (false, r2)
    | '-' :: r2 => (true, r2)
    | r2 => (false, r2)
  match digitsU se.2 with
  | some (e, _, []) =>
    let d : Dec :=
      if se.1 then ⟨(num : Int), den * 10 ^ e⟩ else ⟨(num : Int) * 10 ^ e, den⟩
    some (.finite (if neg then ⟨-d.num, d.den⟩ else d))
  | _ => none

/-- Finish a float literal after the mantissa `num / den`: end of input,
or an exponent part. -/
def pyFinishExp (neg : Bool) (num : Nat) (den : Nat) : List Char → Option PyFloat
  | [] => some (.finite (if neg then ⟨-(num : Int), den⟩ else ⟨(num : Int), den⟩))
  | 'e' :: r => pyExpDigits neg num den r
  | 'E' :: r => pyExpDigits neg num den r
  | _ => none

/-- Case-insensitive comparison of a character list against a string. -/
def lowerEq (l : List Char) (s : String) : Bool := (l.map Char.toLower) == s.data

/-- Python `float(s)`: strip whitespace, optional sign, then `inf`,
`infinity`, `nan` or a decimal literal with optional fraction and
exponent; `none` models the `ValueError` raise. -/
def pyFloat (s : String) : Option PyFloat :=
  let l := pyStrip s.data
  let sl :=
    match l with
    | '+' :: r => (false, r)
    | '-' :: r => (true, r)
    | r => (false, r)
  let neg := sl.1
  let l1 := sl.2
  if lowerEq l1 "inf" || lowerEq l1 "infinity" then some (.inf neg)
  else if lowerEq l1 "nan" then some PyFloat.nan
  else
    match digitsU l1 with
    | some (ip, _, r1) =>
      match r1 with
      | '.' :: r2 =>
        match digitsU r2 with
        | some (fp, k, r3) => pyFinishExp neg (ip * 10 ^ k + fp) (10 ^ k) r3
        | none => pyFinishExp neg ip 1 r2
      | _ => pyFinishExp neg ip 1 r1
    | none =>
      match l1 with
      | '.' :: r2 =>
        match digitsU r2 with
        | some (fp, k, r3) => pyFinishExp neg fp (10 ^ k) r3
        | none => none
      | _ => none

example : pyFloat "1234.5" = some (.finite ⟨12345, 10⟩) := by decide
example : pyFloat "0.75" = some (.finite ⟨75, 100⟩) := by decide
example : pyFloat "-33.45" = some (.finite ⟨-3345, 100⟩) := by decide
example : pyFloat "s/i" = none := by decide
example : pyFloat "." = none := by decide
example : pyFloat "1e3" = some (.finite ⟨1000, 1⟩) := by decide
example : pyFloat " inf " = some (.inf false) := by decide
example : pyFloat "" = none := by decide
example : Dec.toRat ⟨12345, 10⟩ = (2469 : ℚ) / 2 := by norm_num [Dec.toRat]

/-- A naive datetime as produced by `datetime.strptime`; seconds and
microseconds are always zero for the format used here. -/
structure PyDateTime where
  year : Nat
  month : Nat
  day : Nat
  hour : Nat
  minute : Nat
deriving DecidableEq, Repr

/-- Gregorian leap-year test. -/
def isLeap (y : Nat) : Bool := y % 4 == 0 && (y % 100 != 0 || y % 400 == 0)

/-- Number of days in a month. -/
def daysInMonth (y m : Nat) : Nat :=
  if m == 2 then (if isLeap y then 29 else 28)
  else if m == 4 || m == 6 || m == 9 || m == 11 then 30
  else 31

/-- Candidate parses of `%d` (regex `3[01]|[12]\d|0[1-9]|[1-9]`), in the
backtracking order of the alternation: two digits first, then one. -/
def dayCands : List Char → List (Nat × List Char)
  | c1 :: c2 :: r =>
    (if (c1 == '3' && (c2 == '0' || c2 == '1'))
        || ((c1 == '1' || c1 == '2') && c2.isDigit)
        || (c1 == '0' && c2.isDigit && c2 != '0')
     then [(10 * digitVal c1 + digitVal c2, r)] else [])
    ++ (if c1.isDigit && c1 != '0' then [(digitVal c1, c2 :: r)] else [])
  | [c1] => if c1.isDigit && c1 != '0' then [(digitVal c1, [])] else []
  | [] => []

/-- Candidate parses of `%H` (regex `2[0-3]|[0-1]\d|\d`). -/
def hourCands : List Char → List (Nat × List Char)
  | c1 :: c2 :: r =>
    (if (c1 == '2' && (c2 == '0' || c2 == '1' || c2 == '2' || c2 == '3'))
        || ((c1 == '0' || c1 == '1') && c2.isDigit)
     then [(10 * digitVal c1 + digitVal c2, r)] else [])
    ++ (if c1.isDigit then [(digitVal c1, c2 :: r)] else [])
  | [c1] => if c1.isDigit then [(digitVal c1, [])] else []
  | [] => []

/-- Candidate parses of `%M` (regex `[0-5]\d|\d`). -/
def minCands : List Char → List (Nat × List Char)
  | c1 :: c2 :: r =>
    (if (c1 == '0' || c1 == '1' || c1 == '2' || c1 == '3' || c1 == '4' || c1 == '5')
        && c2.isDigit
     then [(10 * digitVal c1 + digitVal c2, r)] else [])
    ++ (if c1.isDigit then [(digitVal c1, c2 :: r)] else [])
  | [c1] => if c1.isDigit then [(digitVal c1, [])] else []
  | [] => []

/-- C-locale month abbreviations used by `%b`. -/
def monthAbbrevs : List (String × Nat) :=
  [("jan", 1), ("feb", 2), ("mar", 3), ("apr", 4), ("may", 5), ("jun", 6),
   ("jul", 7), ("aug", 8), ("sep", 9), ("oct", 10), ("nov", 11), ("dec", 12)]

/-- Parse `%b`: three characters, case-insensitively a month abbreviation. -/
def pMonth : List Char → Option (Nat × List Char)
  | c1 :: c2 :: c3 :: r =>
    match monthAbbrevs.find? (fun p => p.1.data == [c1.toLower, c2.toLower, c3.toLower]) with
    | some p => some (p.2, r)
    | none => none
  | _ => none

/-- Parse `%Y`: exactly four digits. -/
def p4 : List Char → Option (Nat × List Char)
  | c1 :: c2 :: c3 :: c4 :: r =>
    if c1.isDigit && c2.isDigit && c3.isDigit && c4.isDigit
    then some (1000 * digitVal c1 + 100 * digitVal c2 + 10 * digitVal c3 + digitVal c4, r)
    else none
  | _ => none

/-- One or more whitespace characters (a literal blank in the format). -/
def pWs1 : List Char → Option (List Char)
  | c :: r => if c.isWhitespace then some (r.dropWhile Char.isWhitespace) else none
  | [] => none

/-- Model of `datetime.strptime(s, "%d-%b-%Y %H:%M")`: `none` models the caught
`ValueError` (bad shape or calendar-invalid date). -/
def strptimeDMY (s : String) : Option PyDateTime :=
  (dayCands s.data).findSome? fun dc =>
    match dc.2 with
    | '-' :: r2 =>
      match pMonth r2 with
      | some (mo, '-' :: r4) =>
        match p4 r4 with
        | some (y, r5) =>
          match pWs1 r5 with
          | some r6 =>
            (hourCands r6).findSome? fun hc =>
              match hc.2 with
              | ':' :: r8 =>
                (minCands r8).findSome? fun mc =>
                  if mc.2 = ([] : List Char) ∧ 1 ≤ y ∧ dc.1 ≤ daysInMonth y mo
                  then some ⟨y, mo, dc.1, hc.1, mc.1⟩ else none
              | _ => none
          | none => none
        | none => none
      | _ => none
    | _ => none

example : strptimeDMY "16-nov-2025 18:36" = some ⟨2025, 11, 16, 18, 36⟩ := by decide
example : strptimeDMY "garbage" = none := by decide
example : strptimeDMY "31-feb-2025 10:00" = none := by decide
example : strptimeDMY "16-nov-2025 18:36 " = none := by decide

/-- Errors raised by the parsers. The Python code raises `ValueError` for
all three structural failures; the spec's taxonomy names the first two
`NotFoundError` and `MalformedDocumentError`, so they are distinguished
here by construction site. `attributeError` models the `AttributeError`
of calling `.find` on a `None` returned by `find_parent`. -/
inductive ScrapeError where
  | notFound (msg : String)
  | malformed (msg : String)
  | valueError (msg : String)
  | attributeError (msg : String)
deriving DecidableEq, Repr

/-- Sequential effectful map over a list in `Except`: the first error
aborts, as an uncaught exception does in the Python row loop. -/
def exMapM {α β : Type} (f : α → Except ScrapeError β) : List α → Except ScrapeError (List β)
  | [] => .ok []
  | x :: xs =>
    match f x with
    | .error e => .error e
    | .ok y =>
      match exMapM f xs with
      | .error e => .error e
      | .ok ys => .ok (y :: ys)

/-- Sequential effectful fold over a list in `Except`. -/
def exFoldl {α δ : Type} (f : δ → α → Except ScrapeError δ) (init : δ) :
    List α → Except ScrapeError δ
  | [] => .ok init
  | x :: xs =>
    match f init x with
    | .error e => .error e
    | .ok d2 => exFoldl f d2 xs

/-- Site origin prepended to relative hrefs. -/
def SIDCO_BASE : String := "https://sidco.conaf.cl"

/-- The marker phrase of the listing heading. -/
def tituloMarker : String := "Incendios forestales vigentes"

/-- The condition of `soup.find("h1", string=lambda t: t and marker in t)`. -/
def h1Match (n : Html) : Bool := Html.isTag "h1" n && soleHas tituloMarker n

/-- Preorder position of the first matching `h1`, if any. -/
def markerIdx (doc : Html) : Option Nat := (nodesOf doc).findIdx? h1Match

/-- Model of `h1.find_all_next("table", class_="tabla")`: all tables with class
`tabla` that begin after the marker heading in document order. -/
def tablasOf (doc : Html) : List Html :=
  match markerIdx doc with
  | none => []
  | some i =>
    ((nodesOf doc).drop (i + 1)).filter (fun n => Html.isTag "table" n && hasClass "tabla" n)

/-- The header cell texts of a table's `thead`. -/
def headerCells (th : Html) : List String :=
  ((descNodes th).filter (fun n => Html.isTag "td" n || Html.isTag "th" n)).map getTextStrip

/-- Whether a candidate table has a `thead` whose cells include both
`Fecha` and `Región`. -/
def tablaFechaRegion (t : Html) : Bool :=
  match findDesc (Html.isTag "thead") t with
  | none => false
  | some th => (headerCells th).contains "Fecha" && (headerCells th).contains "Región"

/-- The listing table selected by the header scan. -/
def selectedTable (doc : Html) : Option Html := (tablasOf doc).find? tablaFechaRegion

/-- The body of the selected listing table. -/
def selectedTbody (doc : Html) : Option Html :=
  (selectedTable doc).bind (findDesc (Html.isTag "tbody"))

/-- First class of a class list with the alert prefix
(`next((c for c in classes if c.startswith(...)), None)`). -/
def alertaCodigoOf (cs : List String) : Option String :=
  cs.find? (fun c => "incendio-estado-alerta-".data.isPrefixOf c.data)

/-- Alert title and code from the first cell: a present `span` yields its
`title` attribute and the prefixed class (or `none`); an absent `span`
yields `("", "")`. -/
def parseAlerta (td0 : Html) : String × Option String :=
  match findDesc (Html.isTag "span") td0 with
  | some sp => (Html.attrD "title" "" sp, alertaCodigoOf (Html.classesOf sp))
  | none => ("", some "")

/-- URL from the first anchor of a cell: base origin plus the `href`, or
`none` when the anchor or its `href` is absent. -/
def linkUrl (td : Html) : Option String :=
  match findDesc (Html.isTag "a") td with
  | some a =>
    match Html.attrQ "href" a with
    | some h => some (SIDCO_BASE ++ h)
    | none => none
  | none => none

/-- Separator rewriting `.replace(".", "").replace(",", ".")` on the area text. -/
def cleanArea (t : String) : String :=
  String.mk ((t.data.filter (fun c => c != '.')).map (fun c => if c == ',' then '.' else c))

/-- Area parsing: empty cleaned text is `None`, otherwise `float(...)`,
whose failure is an uncaught `ValueError`. -/
def parseSuperficie (txt : String) : Except ScrapeError (Option PyFloat) :=
  let c := cleanArea txt
  if c = "" then .ok none
  else
    match pyFloat c with
    | some v => .ok (some v)
    | none => .error (.valueError "could not convert string to float")

/-- Date parsing: `strptime` guarded by a non-empty raw text, with
`ValueError` caught to `None`. -/
def parseFecha (raw : String) : Option PyDateTime :=
  if raw = "" then none else strptimeDMY raw

/-- One row of the listing table. -/
structure FireRecord where
  alerta_titulo : String
  alerta_codigo : Option String
  fecha_raw : String
  fecha : Option PyDateTime
  region : String
  nombre : String
  ambito : String
  comuna : String
  estado : String
  superficie_ha : Option PyFloat
  url_poligono : Option String
  url_ficha : Option String
  url_archivos : Option String
deriving DecidableEq, Repr, Inhabited

/-- Build a record from the cells of a row with at least 12 cells. -/
def buildRow (tds : List Html) : Except ScrapeError (Option FireRecord) :=
  let al := parseAlerta (tds.getD 0 (.txt ""))
  let fr := getTextStrip (tds.getD 1 (.txt ""))
  match parseSuperficie (getTextStrip (tds.getD 7 (.txt ""))) with
  | .error e => .error e
  | .ok superficie =>
    .ok (some
      { alerta_titulo := al.1
        alerta_codigo := al.2
        fecha_raw := fr
        fecha := parseFecha fr
        region := getTextStrip (tds.getD 2 (.txt ""))
        nombre := getTextStrip (tds.getD 3 (.txt ""))
        ambito := getTextStrip (tds.getD 4 (.txt ""))
        comuna := getTextStrip (tds.getD 5 (.txt ""))
        estado := getTextSpace (tds.getD 6 (.txt ""))
        superficie_ha := superficie
        url_poligono := linkUrl (tds.getD 8 (.txt ""))
        url_ficha := linkUrl (tds.getD 9 (.txt ""))
        url_archivos := linkUrl (tds.getD 11 (.txt "")) })

/-- One body row: rows with fewer than 12 cells are skipped (`continue`). -/
def parseRow (tr : Html) : Except ScrapeError (Option FireRecord) :=
  let tds := descTags "td" tr
  if tds.length < 12 then .ok none else buildRow tds

/-- The listing parser `parsear_tabla_incendios`: locate the marker heading, select the
listing table by its headers, require a `tbody`, and build one record per
row with at least 12 cells, in document order. -/
def parsear_tabla_incendios (doc : Html) : Except ScrapeError (List FireRecord) :=
  match markerIdx doc with
  | none => .error (.notFound "No se encontro el titulo Incendios forestales vigentes")
  | some _ =>
    match selectedTable doc with
    | none => .error (.notFound "No se encontro la tabla de incendios")
    | some t =>
      match findDesc (Html.isTag "tbody") t with
      | none => .error (.malformed "La tabla de incendios no tiene tbody")
      | some tb =>
        match exMapM parseRow (descTags "tr" tb) with
        | .error e => .error e
        | .ok ys => .ok (ys.filterMap id)

/-- Characters matched by the regex class `[\-0-9\.]`. -/
def numChar (c : Char) : Bool := c.isDigit || c == '-' || c == '.'

/-- Drop an exact literal from the front of a character list. -/
def dropLit : List Char → List Char → Option (List Char)
  | [], l => some l
  | c :: cs, d :: ds => if c == d then dropLit cs ds else none
  | _ :: _, [] => none

/-- Match `linkMapa\(this,\s*([\-0-9\.]+),\s*([\-0-9\.]+)\)` at the head
of the list; the character classes are disjoint from the following
literals, so maximal munch coincides with the regex backtracking. -/
def matchLinkMapaAt (l : List Char) : Option (String × String) :=
  match dropLit "linkMapa(this,".data l with
  | none => none
  | some r1 =>
    let r2 := r1.dropWhile Char.isWhitespace
    let g1 := r2.takeWhile numChar
    if g1.isEmpty then none
    else
      match r2.dropWhile numChar with
      | ',' :: r3 =>
        let r4 := r3.dropWhile Char.isWhitespace
        let g2 := r4.takeWhile numChar
        if g2.isEmpty then none
        else
          match r4.dropWhile numChar with
          | ')' :: _ => some (String.mk g1, String.mk g2)
          | _ => none
      | _ => none

/-- Model of `re.search` of the `linkMapa` pattern: leftmost match of the two
captured groups, or `none`. -/
def linkMapaSearch : List Char → Option (String × String)
  | [] => none
  | c :: r =>
    match matchLinkMapaAt (c :: r) with
    | some g => some g
    | none => linkMapaSearch r

/-- Coordinate extraction from an `onclick` string: a regex match feeds
both captured groups to `float(...)`, whose failure is an uncaught
`ValueError`; no match yields `(None, None)`. -/
def latLonFromOnclick (onclick : String) : Except ScrapeError (Option PyFloat × Option PyFloat) :=
  match linkMapaSearch onclick.data with
  | none => .ok (none, none)
  | some (g1, g2) =>
    match pyFloat g1 with
    | none => .error (.valueError "could not convert string to float")
    | some la =>
      match pyFloat g2 with
      | none => .error (.valueError "could not convert string to float")
      | some lo => .ok (some la, some lo)

/-- Coordinate extraction from the operative-value cell: absent anchor
yields `(None, None)`, otherwise its `onclick` attribute is searched. -/
def extractLatLon (c1 : Html) : Except ScrapeError (Option PyFloat × Option PyFloat) :=
  match findDesc (Html.isTag "a") c1 with
  | none => .ok (none, none)
  | some a => latLonFromOnclick (Html.attrD "onclick" "" a)

/-- A value stored in the detail dictionary. -/
inductive DetailVal where
  | str (v : String)
  | num (v : PyFloat)
deriving DecidableEq, Repr

/-- The detail dictionary: insertion-ordered keyed entries. -/
abbrev Dict := List (String × DetailVal)

/-- Python dict assignment: update in place if the key exists, else
append. -/
def dictInsert (d : Dict) (k : String) (v : DetailVal) : Dict :=
  if d.any (fun p => p.1 == k) then d.map (fun p => if p.1 == k then (k, v) else p)
  else d ++ [(k, v)]

/-- First `td` in document order whose sole string contains the phrase,
with its ancestor chain (`soup.find("td", string=...)`). -/
def findTdAnchor (ph : String) (doc : Html) : Option (Html × List Html) :=
  (nodesAnc doc).find? (fun pr => Html.isTag "td" pr.1 && soleHas ph pr.1)

/-- Marker phrase of the coordinates pass. -/
def fraseCoordenadas : String := "Coordenadas operativas"

/-- Marker phrase of the meteorological pass. -/
def fraseCondiciones : String := "CONDICIONES METEOROLOGICAS Y TOPOGRAFICAS INICIALES"

/-- One row of the coordinates sub-table: rows with fewer than 4 cells are
skipped; lat/lon are extracted before the label is inspected, exactly as
in the source. -/
def passARow (d : Dict) (tr : Html) : Except ScrapeError Dict :=
  let celdas := descTags "td" tr
  if celdas.length < 4 then .ok d
  else
    let etiqueta := getTextStrip (celdas.getD 0 (.txt ""))
    let valor_op := getTextStrip (celdas.getD 1 (.txt ""))
    let valor_inv := getTextStrip (celdas.getD 3 (.txt ""))
    match extractLatLon (celdas.getD 1 (.txt "")) with
    | .error e => .error e
    | .ok ll =>
      if containsSub "Coordenadas UTM".data etiqueta.data then
        .ok (dictInsert (dictInsert d "utm_operativas" (.str valor_op))
          "utm_investigadas" (.str valor_inv))
      else if containsSub "Coordenadas geográficas".data etiqueta.data then
        let d1 := dictInsert (dictInsert d "geo_operativas" (.str valor_op))
          "geo_investigadas" (.str valor_inv)
        match ll with
        | (some la, some lo) =>
          .ok (dictInsert (dictInsert d1 "lat_operativa" (.num la)) "lon_operativa" (.num lo))
        | _ => .ok d1
      else .ok d

/-- Coordinates pass: best-effort on a missing anchor cell or missing
`tbody`, but `find_parent` returning `None` is an `AttributeError`. -/
def passA (doc : Html) (d : Dict) : Except ScrapeError Dict :=
  match findTdAnchor fraseCoordenadas doc with
  | none => .ok d
  | some (_, anc) =>
    match anc.find? (Html.isTag "table") with
    | none => .error (.attributeError "NoneType object has no attribute find")
    | some tabla =>
      match findDesc (Html.isTag "tbody") tabla with
      | none => .ok d
      | some tb => exFoldl passARow d (descTags "tr" tb)

/-- Label-to-field mapping of the meteorological pass. -/
def mapeo : List (String × String) :=
  [("Temperatura:", "meteo_temperatura"),
   ("Nubosidad:", "meteo_nubosidad"),
   ("Hum. relativa:", "meteo_hum_relativa"),
   ("Velocidad viento:", "meteo_vel_viento"),
   ("Pendiente:", "meteo_pendiente"),
   ("Exposición:", "meteo_exposicion"),
   ("Direccion viento:", "meteo_dir_viento"),
   ("Topografia:", "meteo_topografia"),
   ("Estacion Meteorológica:", "meteo_estacion"),
   ("Fecha:", "meteo_fecha")]

/-- One row of the meteorological sub-table: rows with fewer than 2 cells
are skipped; unrecognized labels are ignored. -/
def passBRow (d : Dict) (tr : Html) : Dict :=
  let celdas := descTags "td" tr
  if celdas.length < 2 then d
  else
    let etiqueta := getTextStrip (celdas.getD 0 (.txt ""))
    let valor := getTextStrip (celdas.getD 1 (.txt ""))
    match mapeo.find? (fun p => p.1 == etiqueta) with
    | some p => dictInsert d p.2 (.str valor)
    | none => d

/-- Meteorological pass: best-effort on a missing anchor cell or missing
`tbody`, but `find_parent` returning `None` is an `AttributeError`. -/
def passB (doc : Html) (d : Dict) : Except ScrapeError Dict :=
  match findTdAnchor fraseCondiciones doc with
  | none => .ok d
  | some (_, anc) =>
    match anc.find? (Html.isTag "table") with
    | none => .error (.attributeError "NoneType object has no attribute find")
    | some tabla =>
      match findDesc (Html.isTag "tbody") tabla with
      | none => .ok d
      | some tb => .ok ((descTags "tr" tb).foldl passBRow d)

/-- The detail parser `parsear_ficha_incendio`: the coordinates pass then the meteorological
pass over the same document, merging into one dictionary. -/
def parsear_ficha_incendio (doc : Html) : Except ScrapeError Dict :=
  match passA doc [] with
  | .error e => .error e
  | .ok d1 => passB doc d1

/-- A `td` holding a single text node. -/
def tdTxt (s : String) : Html := .elem "td" [] [] (hl [.txt s])

/-- A `td` holding an anchor with an `href`. -/
def tdA (href : String) : Html := .elem "td" [] [] (hl [.elem "a" [("href", href)] [] .nil])

/-- A listing row with 12 cells, used by concrete witnesses. -/
def trLongW : Html :=
  .elem "tr" [] [] (hl
    [.elem "td" [] [] (hl
      [.elem "span" [("title", "Alerta Roja")] ["incendio-estado-alerta-roja"] .nil]),
     tdTxt "16-nov-2025 18:36", tdTxt "Valparaiso", tdTxt "Incendio A", tdTxt "Rural",
     tdTxt "Quilpue", tdTxt "En Combate", tdTxt "1.234,5",
     tdA "/poligono/1", tdA "/ficha/1", tdTxt "x", tdA "/archivos/1"])

/-- A listing row with a single cell, skipped by the parser. -/
def trShortW : Html := .elem "tr" [] [] (hl [tdTxt "solo"])

/-- Body of the concrete listing table: one short row, one full row. -/
def tbodyW : Html := .elem "tbody" [] [] (hl [trShortW, trLongW])

/-- Header of the concrete listing table. -/
def theadW : Html :=
  .elem "thead" [] [] (hl [.elem "tr" [] [] (hl [tdTxt "Fecha", tdTxt "Región"])])

/-- The concrete listing table. -/
def tablaW : Html := .elem "table" [] ["tabla"] (hl [theadW, tbodyW])

/-- The marker heading. -/
def h1W : Html := .elem "h1" [] [] (hl [.txt "Incendios forestales vigentes"])

/-- A well-formed concrete listing document. -/
def docW : Html := .elem "html" [] [] (hl [h1W, tablaW])

/-- The record the listing parser produces for `trLongW`. -/
def recW : FireRecord :=
  { alerta_titulo := "Alerta Roja"
    alerta_codigo := some "incendio-estado-alerta-roja"
    fecha_raw := "16-nov-2025 18:36"
    fecha := some ⟨2025, 11, 16, 18, 36⟩
    region := "Valparaiso"
    nombre := "Incendio A"
    ambito := "Rural"
    comuna := "Quilpue"
    estado := "En Combate"
    superficie_ha := some (.finite ⟨12345, 10⟩)
    url_poligono := some "https://sidco.conaf.cl/poligono/1"
    url_ficha := some "https://sidco.conaf.cl/ficha/1"
    url_archivos := some "https://sidco.conaf.cl/archivos/1" }

example : parsear_tabla_incendios docW = .ok [recW] := rfl

/-- A node's sole string, when it exists, is exactly its full text. -/
theorem soleString_rawText : (n : Html) → (s : String) →
    Html.soleString n = some s → Html.rawText n = s.data
  | .elem _ _ _ (.cons (.txt t) .nil), s, h => by
    simp only [Html.soleString, Option.some.injEq] at h
    subst h
    simp [Html.rawText, HtmlList.rawTextL]
  | .elem _ _ _ (.cons (.elem t a c cs) .nil), s, h => by
    simp only [Html.soleString] at h
    have ih := soleString_rawText (.elem t a c cs) s h
    simp [Html.rawText, HtmlList.rawTextL] at ih ⊢
    exact ih
  | .elem _ _ _ .nil, s, h => by simp [Html.soleString] at h
  | .elem _ _ _ (.cons (.txt _) (.cons _ _)), s, h => by simp [Html.soleString] at h
  | .elem _ _ _ (.cons (.elem _ _ _ _) (.cons _ _)), s, h => by simp [Html.soleString] at h
  | .txt _, s, h => by simp [Html.soleString] at h

/-- The BeautifulSoup `string=` filter implies the phrase occurs in the
node's full text. -/
theorem soleHas_textHas (ph : String) (n : Html) (h : soleHas ph n = true) :
    textHas ph n = true := by
  unfold soleHas at h
  cases hs : Html.soleString n with
  | none => rw [hs] at h; simp at h
  | some s =>
    rw [hs] at h
    unfold textHas
    rw [soleString_rawText n s hs]
    exact h

/-- The record a row with at least 12 cells yields (default on the
impossible branches). -/
def rowD (tr : Html) : FireRecord :=
  match parseRow tr with
  | .ok (some r) => r
  | _ => default

/-- Rows with fewer than 12 cells are skipped with no output and no error. -/
theorem parseRow_short (tr : Html) (h : (descTags "td" tr).length < 12) :
    parseRow tr = .ok none := by
  simp [parseRow, h]

/-- A successful row map yields, after dropping the skipped rows, exactly
the records of the rows with at least 12 cells, in order. -/
theorem exMapM_parseRow_filterMap : ∀ (trs : List Html) (ys : List (Option FireRecord)),
    exMapM parseRow trs = .ok ys →
    ys.filterMap id =
      (trs.filter (fun tr => 12 ≤ (descTags "td" tr).length)).map rowD
  | [], ys, h => by
    simp [exMapM] at h
    subst h
    simp
  | tr :: rest, ys, h => by
    rw [exMapM] at h
    cases hf : parseRow tr with
    | error e => rw [hf] at h; exact absurd h (by simp)
    | ok y =>
      rw [hf] at h
      cases hrest : exMapM parseRow rest with
      | error e => rw [hrest] at h; exact absurd h (by simp)
      | ok ys' =>
        rw [hrest] at h
        simp only [Except.ok.injEq] at h
        subst h
        have ih := exMapM_parseRow_filterMap rest ys' hrest
        by_cases hlen : (descTags "td" tr).length < 12
        · have hy : y = none := by
            have h2 := parseRow_short tr hlen
            rw [hf] at h2
            simpa using h2
          subst hy
          have hfilter : (12 ≤ (descTags "td" tr).length) = False := by
            simp; omega
          simp [List.filter_cons, hfilter, ih]
        · have hlen' : 12 ≤ (descTags "td" tr).length := by omega
          have hbuild : buildRow (descTags "td" tr) = .ok y := by
            rw [parseRow] at hf
            simpa [hlen] using hf
          have hy : ∃ r, y = some r := by
            rw [buildRow] at hbuild
            cases hs : parseSuperficie (getTextStrip ((descTags "td" tr).getD 7 (.txt ""))) with
            | error e => rw [hs] at hbuild; exact absurd hbuild (by simp)
            | ok sup =>
              rw [hs] at hbuild
              simp only [Except.ok.injEq] at hbuild
              exact ⟨_, hbuild.symm⟩
          obtain ⟨r, hr⟩ := hy
          subst hr
          have hrow : rowD tr = r := by
            unfold rowD
            rw [hf]
          simp [List.filter_cons, hlen', ih, hrow]

/-- If no element node is a marker heading, the heading search fails. -/
theorem markerIdx_none (doc : Html) (h : ∀ n ∈ nodesOf doc, h1Match n = false) :
    markerIdx doc = none := by
  unfold markerIdx
  simp only [List.findIdx?_eq_none_iff]
  intro n hn
  simp [h n hn]

/-- A selected table presupposes a found marker heading. -/
theorem selectedTable_markerIdx (doc t : Html) (h : selectedTable doc = some t) :
    ∃ i, markerIdx doc = some i := by
  cases hm : markerIdx doc with
  | some i => exact ⟨i, rfl⟩
  | none =>
    unfold selectedTable tablasOf at h
    rw [hm] at h
    simp at h

/-- A selected table without a `tbody` aborts the listing parse with the
malformed-document error. -/
theorem listing_no_tbody (doc t : Html) (h1 : selectedTable doc = some t)
    (h2 : findDesc (Html.isTag "tbody") t = none) :
    parsear_tabla_incendios doc = .error (.malformed "La tabla de incendios no tiene tbody") := by
  obtain ⟨i, hm⟩ := selectedTable_markerIdx doc t h1
  unfold parsear_tabla_incendios
  rw [hm, h1]
  dsimp only
  rw [h2]

/-- If some list element maps to an error, the effectful map errors. -/
theorem exMapM_error_of_mem {α β : Type} (f : α → Except ScrapeError β) :
    ∀ (l : List α) (x : α) (e0 : ScrapeError), x ∈ l → f x = .error e0 →
      ∃ e, exMapM f l = .error e
  | [], x, e0, hx, _ => absurd hx (List.not_mem_nil x)
  | a :: t, x, e0, hx, hfx => by
    cases hfa : f a with
    | error e => exact ⟨e, by rw [exMapM, hfa]⟩
    | ok y =>
      rcases List.mem_cons.mp hx with rfl | hxt
      · rw [hfx] at hfa; exact absurd hfa (by simp)
      · obtain ⟨e, he⟩ := exMapM_error_of_mem f t x e0 hxt hfx
        exact ⟨e, by rw [exMapM, hfa, he]⟩

/-- Claim C2: for every HTML document that contains no `h1` heading whose
text contains the marker phrase `Incendios forestales vigentes`, the
listing parser fails with the not-found error and returns no partial
result. -/
theorem listing_missing_heading_notFound (doc : Html)
    (h : ∀ n ∈ nodesOf doc, (Html.isTag "h1" n && textHas tituloMarker n) = false) :
    parsear_tabla_incendios doc =
      .error (.notFound "No se encontro el titulo Incendios forestales vigentes") := by
  have hm : markerIdx doc = none := by
    apply markerIdx_none
    intro n hn
    have hh := h n hn
    cases hIs : Html.isTag "h1" n with
    | false => simp [h1Match, hIs]
    | true =>
      cases hSole : soleHas tituloMarker n with
      | false => simp [h1Match, hIs, hSole]
      | true =>
        have ht := soleHas_textHas _ _ hSole
        rw [hIs, ht] at hh
        simp at hh
  unfold parsear_tabla_incendios
  rw [hm]

/-- A document with no `h1` at all containing the marker phrase. -/
def docNoH1 : Html :=
  .elem "html" [] [] (hl
    [.elem "p" [] [] (hl [.txt "Incendios forestales vigentes"]),
     .elem "h1" [] [] (hl [.txt "Otra cosa"])])

/-- Witness for C2 at a concrete document. -/
theorem listing_missing_heading_notFound_witness :
    parsear_tabla_incendios docNoH1 =
      .error (.notFound "No se encontro el titulo Incendios forestales vigentes") :=
  listing_missing_heading_notFound docNoH1 (by decide)

/-- Claim C6: a document whose marker heading and listing table are found
but whose selected table has no `tbody` makes the listing parser fail
with the malformed-document error. -/
theorem listing_missing_tbody_malformed (doc t : Html)
    (h1 : selectedTable doc = some t)
    (h2 : findDesc (Html.isTag "tbody") t = none) :
    parsear_tabla_incendios doc = .error (.malformed "La tabla de incendios no tiene tbody") :=
  listing_no_tbody doc t h1 h2

/-- A listing table with headers but no body. -/
def tablaNoTbody : Html := .elem "table" [] ["tabla"] (hl [theadW])

/-- A document whose listing table lacks a body. -/
def docNoTbody : Html := .elem "html" [] [] (hl [h1W, tablaNoTbody])

/-- Witness for C6 at a concrete document. -/
theorem listing_missing_tbody_malformed_witness :
    parsear_tabla_incendios docNoTbody =
      .error (.malformed "La tabla de incendios no tiene tbody") :=
  listing_missing_tbody_malformed docNoTbody tablaNoTbody rfl rfl

/-- Claim C3: on a successful parse, the output is exactly one record per
body row with at least 12 cells, in document order with no sorting and no
deduplication, and every shorter row is skipped with no output and no
error. -/
theorem listing_rows_filter_order (doc tb : Html) (rs : List FireRecord)
    (h1 : selectedTbody doc = some tb)
    (h2 : parsear_tabla_incendios doc = .ok rs) :
    rs = ((descTags "tr" tb).filter (fun tr => 12 ≤ (descTags "td" tr).length)).map rowD
    ∧ ∀ tr ∈ descTags "tr" tb, (descTags "td" tr).length < 12 → parseRow tr = .ok none := by
  constructor
  · obtain ⟨t, ht, htb⟩ := Option.bind_eq_some.mp h1
    obtain ⟨i, hm⟩ := selectedTable_markerIdx doc t ht
    unfold parsear_tabla_incendios at h2
    rw [hm, ht] at h2
    dsimp only at h2
    rw [htb] at h2
    dsimp only at h2
    cases hmm : exMapM parseRow (descTags "tr" tb) with
    | error e => rw [hmm] at h2; exact absurd h2 (by simp)
    | ok ys =>
      rw [hmm] at h2
      simp only [Except.ok.injEq] at h2
      subst h2
      exact exMapM_parseRow_filterMap _ _ hmm
  · intro tr _ hlen
    exact parseRow_short tr hlen

/-- Witness for C3 at a concrete two-row document: the short row is
dropped and the long row yields the single record. -/
theorem listing_rows_filter_order_witness :
    [recW] = ((descTags "tr" tbodyW).filter (fun tr => 12 ≤ (descTags "td" tr).length)).map rowD :=
  (listing_rows_filter_order docW tbodyW [recW] rfl rfl).1

/-- The cleaned area text of a row (cell 7 after separator rewriting). -/
def areaTxt (tr : Html) : String :=
  cleanArea (getTextStrip ((descTags "td" tr).getD 7 (.txt "")))

/-- Claim C9: a kept row (12 or more cells) whose area text is non-empty
but not a parseable number makes the whole listing parse error, producing
no records at all. -/
theorem listing_bad_area_aborts (doc tb tr : Html)
    (h1 : selectedTbody doc = some tb)
    (h2 : tr ∈ descTags "tr" tb)
    (h3 : 12 ≤ (descTags "td" tr).length)
    (h4 : areaTxt tr ≠ "")
    (h5 : pyFloat (areaTxt tr) = none) :
    ∃ e, parsear_tabla_incendios doc = .error e := by
  have hps : parseSuperficie (getTextStrip ((descTags "td" tr).getD 7 (.txt ""))) =
      .error (.valueError "could not convert string to float") := by
    unfold parseSuperficie
    have hc : cleanArea (getTextStrip ((descTags "td" tr).getD 7 (.txt ""))) = areaTxt tr := rfl
    rw [hc]
    simp [h4, h5]
  have hrow : parseRow tr = .error (.valueError "could not convert string to float") := by
    have hlen : ¬ (descTags "td" tr).length < 12 := by omega
    unfold parseRow
    simp only [hlen, if_false]
    unfold buildRow
    rw [hps]
  obtain ⟨t, ht, htb⟩ := Option.bind_eq_some.mp h1
  obtain ⟨i, hm⟩ := selectedTable_markerIdx doc t ht
  obtain ⟨e, he⟩ := exMapM_error_of_mem parseRow (descTags "tr" tb) tr _ h2 hrow
  refine ⟨e, ?_⟩
  unfold parsear_tabla_incendios
  rw [hm, ht]
  dsimp only
  rw [htb]
  dsimp only
  rw [he]

/-- A 12-cell row whose area cell holds the unparseable text `s/i`. -/
def trBad9 : Html :=
  .elem "tr" [] [] (hl
    [tdTxt "", tdTxt "16-nov-2025 18:36", tdTxt "Valparaiso", tdTxt "Incendio B", tdTxt "Rural",
     tdTxt "Quilpue", tdTxt "Activo", tdTxt "s/i",
     tdA "/poligono/2", tdA "/ficha/2", tdTxt "x", tdA "/archivos/2"])

/-- Body holding the bad-area row. -/
def tbody9 : Html := .elem "tbody" [] [] (hl [trBad9])

/-- Document whose only data row has the unparseable area text. -/
def doc9 : Html :=
  .elem "html" [] [] (hl [h1W, .elem "table" [] ["tabla"] (hl [theadW, tbody9])])

/-- Witness for C9 at a concrete document with area text `s/i`. -/
theorem listing_bad_area_aborts_witness : ∃ e, parsear_tabla_incendios doc9 = .error e :=
  listing_bad_area_aborts doc9 tbody9 trBad9 rfl
    (List.mem_singleton.mpr rfl) (by decide) (by decide) rfl

/-- Claim C4: the area cell is parsed with `.` as thousands separator and
`,` as decimal separator: `1.234,5` yields 1234.5, `0,75` yields 0.75,
and empty text yields no value. -/
theorem area_parsing_examples :
    parseSuperficie "1.234,5" = .ok (some (.finite ⟨12345, 10⟩))
    ∧ Dec.toRat ⟨12345, 10⟩ = (1234.5 : ℚ)
    ∧ parseSuperficie "0,75" = .ok (some (.finite ⟨75, 100⟩))
    ∧ Dec.toRat ⟨75, 100⟩ = (0.75 : ℚ)
    ∧ parseSuperficie "" = .ok none := by
  refine ⟨rfl, ?_, rfl, ?_, rfl⟩ <;> norm_num [Dec.toRat]

/-- Claim C5: date parsing yields the expected datetime on the fixed
format and `none` (never an exception) on any other text. -/
theorem date_parsing_examples :
    parseFecha "16-nov-2025 18:36" = some ⟨2025, 11, 16, 18, 36⟩
    ∧ parseFecha "garbage" = none :=
  ⟨rfl, rfl⟩

/-- Claim C7: the alert code is the first class with the
`incendio-estado-alerta-` prefix, taken whole; no matching class yields
`none`; an absent indicator yields an empty title and an empty code. -/
theorem alerta_extraction :
    alertaCodigoOf ["foo", "incendio-estado-alerta-roja"] = some "incendio-estado-alerta-roja"
    ∧ (∀ cs : List String,
        (∀ c ∈ cs, "incendio-estado-alerta-".data.isPrefixOf c.data = false) →
        alertaCodigoOf cs = none)
    ∧ (∀ td : Html, findDesc (Html.isTag "span") td = none → parseAlerta td = ("", some ""))
    ∧ (∀ td sp : Html, findDesc (Html.isTag "span") td = some sp →
        parseAlerta td = (Html.attrD "title" "" sp, alertaCodigoOf (Html.classesOf sp))) := by
  refine ⟨by decide, ?_, ?_, ?_⟩
  · intro cs h
    unfold alertaCodigoOf
    rw [List.find?_eq_none]
    intro c hc
    simp [h c hc]
  · intro td h
    unfold parseAlerta
    rw [h]
  · intro td sp h
    unfold parseAlerta
    rw [h]

/-- Witness for C7: a class list with no matching prefix, and a cell with
no span. -/
theorem alerta_extraction_witness :
    alertaCodigoOf ["foo"] = none
    ∧ parseAlerta (Html.elem "td" [] [] .nil) = ("", some "") :=
  ⟨alerta_extraction.2.1 ["foo"] (by decide),
   alerta_extraction.2.2.1 (Html.elem "td" [] [] .nil) rfl⟩

/-- No `td` of the document has the phrase in its text. -/
abbrev noTdWith (ph : String) (doc : Html) : Prop :=
  ∀ n ∈ nodesOf doc, (Html.isTag "td" n && textHas ph n) = false

/-- Without a matching `td`, the anchor search of a pass fails. -/
theorem findTdAnchor_none (ph : String) (doc : Html) (h : noTdWith ph doc) :
    findTdAnchor ph doc = none := by
  unfold findTdAnchor
  rw [List.find?_eq_none]
  intro pr hpr
  have hmem : pr.1 ∈ nodesOf doc := List.mem_map_of_mem Prod.fst hpr
  have hh := h pr.1 hmem
  cases hIs : Html.isTag "td" pr.1 with
  | false => simp [hIs]
  | true =>
    cases hS : soleHas ph pr.1 with
    | false => simp [hIs, hS]
    | true =>
      have ht := soleHas_textHas ph pr.1 hS
      rw [hIs, ht] at hh
      simp at hh

/-- Claim C8: each detail pass is independently best-effort — a missing
anchor cell makes that pass contribute nothing, and a document lacking
both anchor cells yields the empty mapping with no error. -/
theorem detail_missing_anchors_empty (doc : Html) :
    (noTdWith fraseCoordenadas doc → ∀ d, passA doc d = .ok d)
    ∧ (noTdWith fraseCondiciones doc → ∀ d, passB doc d = .ok d)
    ∧ (noTdWith fraseCoordenadas doc → noTdWith fraseCondiciones doc →
        parsear_ficha_incendio doc = .ok []) := by
  have hA : noTdWith fraseCoordenadas doc → ∀ d, passA doc d = .ok d := by
    intro h d
    unfold passA
    rw [findTdAnchor_none _ _ h]
  have hB : noTdWith fraseCondiciones doc → ∀ d, passB doc d = .ok d := by
    intro h d
    unfold passB
    rw [findTdAnchor_none _ _ h]
  refine ⟨hA, hB, fun h1 h2 => ?_⟩
  unfold parsear_ficha_incendio
  rw [hA h1 []]
  exact hB h2 []

/-- A detail document with neither anchor cell. -/
def docEmptyFicha : Html := .elem "html" [] [] (hl [.elem "p" [] [] (hl [.txt "nada"])])

/-- Witness for C8 at a concrete anchorless document. -/
theorem detail_missing_anchors_empty_witness :
    parsear_ficha_incendio docEmptyFicha = .ok [] :=
  (detail_missing_anchors_empty docEmptyFicha).2.2 (by decide) (by decide)

/-- Claim C10: a found detail anchor whose enclosing table has no `tbody`
makes that pass contribute nothing, silently — unlike the listing parser,
where a missing `tbody` on the selected table is fatal. -/
theorem detail_missing_tbody_silent :
    (∀ (doc td : Html) (anc : List Html) (tabla : Html),
      findTdAnchor fraseCoordenadas doc = some (td, anc) →
      anc.find? (Html.isTag "table") = some tabla →
      findDesc (Html.isTag "tbody") tabla = none → ∀ d, passA doc d = .ok d)
    ∧ (∀ (doc td : Html) (anc : List Html) (tabla : Html),
      findTdAnchor fraseCondiciones doc = some (td, anc) →
      anc.find? (Html.isTag "table") = some tabla →
      findDesc (Html.isTag "tbody") tabla = none → ∀ d, passB doc d = .ok d)
    ∧ (∀ doc t : Html, selectedTable doc = some t →
      findDesc (Html.isTag "tbody") t = none →
      parsear_tabla_incendios doc = .error (.malformed "La tabla de incendios no tiene tbody")) := by
  refine ⟨?_, ?_, fun doc t h1 h2 => listing_no_tbody doc t h1 h2⟩
  · intro doc td anc tabla hf ht htb d
    unfold passA
    rw [hf]
    dsimp only
    rw [ht]
    dsimp only
    rw [htb]
  · intro doc td anc tabla hf ht htb d
    unfold passB
    rw [hf]
    dsimp only
    rw [ht]
    dsimp only
    rw [htb]

/-- The coordinates anchor cell. -/
def tdAnchorCoord : Html := .elem "td" [] [] (hl [.txt "Coordenadas operativas"])

/-- Row holding the coordinates anchor cell. -/
def trAnchorCoord : Html := .elem "tr" [] [] (hl [tdAnchorCoord])

/-- A detail sub-table with the anchor but no `tbody`. -/
def tablaFichaNoTbody : Html := .elem "table" [] [] (hl [trAnchorCoord])

/-- Detail document whose coordinates sub-table lacks a `tbody`. -/
def docFichaNoTbodyA : Html := .elem "html" [] [] (hl [tablaFichaNoTbody])

/-- The meteorological anchor cell. -/
def tdAnchorCond : Html :=
  .elem "td" [] [] (hl [.txt "CONDICIONES METEOROLOGICAS Y TOPOGRAFICAS INICIALES"])

/-- Row holding the meteorological anchor cell. -/
def trAnchorCond : Html := .elem "tr" [] [] (hl [tdAnchorCond])

/-- A meteorological sub-table with the anchor but no `tbody`. -/
def tablaCondNoTbody : Html := .elem "table" [] [] (hl [trAnchorCond])

/-- Detail document whose meteorological sub-table lacks a `tbody`. -/
def docFichaNoTbodyB : Html := .elem "html" [] [] (hl [tablaCondNoTbody])

/-- Witness for C10 at concrete documents for each pass and for the
listing contrast. -/
theorem detail_missing_tbody_silent_witness :
    passA docFichaNoTbodyA [] = .ok []
    ∧ passB docFichaNoTbodyB [] = .ok []
    ∧ parsear_tabla_incendios docNoTbody =
        .error (.malformed "La tabla de incendios no tiene tbody") :=
  ⟨detail_missing_tbody_silent.1 docFichaNoTbodyA tdAnchorCoord
      [trAnchorCoord, tablaFichaNoTbody, docFichaNoTbodyA] tablaFichaNoTbody rfl rfl rfl [],
   detail_missing_tbody_silent.2.1 docFichaNoTbodyB tdAnchorCond
      [trAnchorCond, tablaCondNoTbody, docFichaNoTbodyB] tablaCondNoTbody rfl rfl rfl [],
   detail_missing_tbody_silent.2.2 docNoTbody tablaNoTbody rfl rfl⟩

/-- Claim C1 (amended): if the `onclick` does not match the `linkMapa`
pattern, extraction yields no lat/lon and no error; if it matches and
both captured arguments are parseable numbers, those are the lat/lon;
but if it matches while a captured argument is not a parseable number,
the conversion raises `ValueError`. -/
theorem coord_extraction_amended (s : String) :
    (linkMapaSearch s.data = none → latLonFromOnclick s = .ok (none, none))
    ∧ (∀ (g1 g2 : String) (la lo : PyFloat), linkMapaSearch s.data = some (g1, g2) →
        pyFloat g1 = some la → pyFloat g2 = some lo →
        latLonFromOnclick s = .ok (some la, some lo))
    ∧ (∀ g1 g2 : String, linkMapaSearch s.data = some (g1, g2) →
        pyFloat g1 = none ∨ pyFloat g2 = none →
        latLonFromOnclick s = .error (.valueError "could not convert string to float")) := by
  refine ⟨?_, ?_, ?_⟩
  · intro h
    unfold latLonFromOnclick
    rw [h]
  · intro g1 g2 la lo h h1 h2
    unfold latLonFromOnclick
    rw [h]
    dsimp only
    rw [h1]
    dsimp only
    rw [h2]
  · intro g1 g2 h hor
    unfold latLonFromOnclick
    rw [h]
    dsimp only
    rcases hor with h1 | h2
    · rw [h1]
    · cases h1 : pyFloat g1 with
      | none => rfl
      | some la =>
        dsimp only
        rw [h2]

/-- Witness for the amended C1 at the spec's example `onclick` text. -/
theorem coord_extraction_amended_witness :
    latLonFromOnclick "linkMapa(this, -33.45, -70.66)" =
      .ok (some (.finite ⟨-3345, 100⟩), some (.finite ⟨-7066, 100⟩)) :=
  (coord_extraction_amended "linkMapa(this, -33.45, -70.66)").2.1 "-33.45" "-70.66"
    (.finite ⟨-3345, 100⟩) (.finite ⟨-7066, 100⟩) rfl rfl rfl

example : Dec.toRat ⟨-3345, 100⟩ = (-33.45 : ℚ) := by norm_num [Dec.toRat]

example : Dec.toRat ⟨-7066, 100⟩ = (-70.66 : ℚ) := by norm_num [Dec.toRat]

/-- Anchor holding a degenerate `onclick` that matches the regex pattern
with non-numeric captured groups. -/
def aBadOnclick : Html := .elem "a" [("onclick", "linkMapa(this, ., .)")] [] .nil

/-- A coordinates row whose operative-value cell carries the degenerate
anchor. -/
def trBadOnclick : Html :=
  .elem "tr" [] [] (hl
    [tdTxt "Coordenadas geográficas", .elem "td" [] [] (hl [aBadOnclick]),
     tdTxt "", tdTxt ""])

/-- Detail document on which coordinate extraction raises. -/
def docC1bad : Html :=
  .elem "html" [] [] (hl
    [.elem "table" [] [] (hl
      [.elem "tbody" [] [] (hl [trAnchorCoord, trBadOnclick])])])

/-- Counterexample to C1 as stated: on a concrete detail document whose
`onclick` is `linkMapa(this, ., .)` — a non-numeric shape — the detail
parser raises `ValueError` instead of yielding absent lat/lon. -/
theorem coord_extraction_counterexample :
    parsear_ficha_incendio docC1bad = .error (.valueError "could not convert string to float") :=
  rfl

end Sidco
